import Mathlib

/-
Verification of the pagination/query engine of `src/app.js`.

The engine operates on two in-memory collections (`users`, `products`)
generated once at startup; the random attributes (age, city, price,
category, stock) are modelled as arbitrary generator functions, since the
claims do not depend on their values.  Query parameters arrive as
`Option Int` / `Option String`: `none` models an absent or non-numeric
parameter (JavaScript `parseInt` returning `NaN`), `some v` a parameter
whose integer parse yielded `v`.  JavaScript `x || d` on a parsed number
replaces both `NaN` and `0` by the default `d`; `parseOr` models this.
-/

/-- A mock user record (app.js lines 41-49). -/
structure User where
  id : Nat
  name : String
  email : String
  age : Nat
  city : String
deriving DecidableEq

/-- A mock product record (app.js lines 51-59).  Prices and stock are
integers in the source data. -/
structure Product where
  id : Nat
  name : String
  price : Int
  category : String
  stock : Int
deriving DecidableEq

/-- The user record generated for 0-based index `i` (app.js lines
41-49); age and city are randomly generated at startup and therefore
modelled by arbitrary functions `age`, `city`. -/
def mkUser (age : Nat → Nat) (city : Nat → String) (i : Nat) : User :=
  { id := i + 1
    name := "User" ++ toString (i + 1)
    email := "user" ++ toString (i + 1) ++ "@example.com"
    age := age i
    city := city i }

/-- The 100 mock users: ids 1..100, names `User<i>`, emails
`user<i>@example.com`. -/
def users (age : Nat → Nat) (city : Nat → String) : List User :=
  (List.range 100).map (mkUser age city)

/-- The 50 mock products: ids 1..50, names `Product <i>`; price, category
and stock are randomly generated at startup and modelled by arbitrary
functions. -/
def products (price : Nat → Int) (category : Nat → String) (stock : Nat → Int) : List Product :=
  (List.range 50).map fun i =>
    { id := i + 1
      name := "Product " ++ toString (i + 1)
      price := price i
      category := category i
      stock := stock i }

/-- JavaScript `x.toLowerCase()` on a string, viewed as its character
list.  `Char.toLower` matches the ASCII lowering performed on the
ASCII-only mock data. -/
def lowerChars (s : String) : List Char := s.data.map Char.toLower

/-- Boolean test that `t` is a prefix of `s` (helper for `includesB`). -/
def isPrefixB [DecidableEq α] : List α → List α → Bool
  | [], _ => true
  | _ :: _, [] => false
  | a :: as, b :: bs => a = b && isPrefixB as bs

/-- JavaScript `s.includes(t)`: `t` occurs as a contiguous substring of
`s`. -/
def includesB [DecidableEq α] (s t : List α) : Bool :=
  match s with
  | [] => t.isEmpty
  | _ :: s' => isPrefixB t s || includesB s' t

/-- JavaScript `parseInt(q) || d`: an absent/non-numeric parameter
(`none`, i.e. `NaN`) and a parameter that parses to `0` are both replaced
by the default `d`. -/
def parseOr (q : Option Int) (d : Int) : Int :=
  match q with
  | none => d
  | some v => if v = 0 then d else v

/-- JavaScript `Array.prototype.slice(s, e)`: negative indices count from
the end, indices are clamped to `[0, length]`, and the result is the
(possibly empty) window from the resolved start to the resolved end. -/
def jsSlice (l : List α) (s e : Int) : List α :=
  let len : Int := l.length
  let start := if s < 0 then max (len + s) 0 else min s len
  let stop := if e < 0 then max (len + e) 0 else min e len
  (l.drop start.toNat).take (stop - start).toNat

/-- The `next`/`previous` navigation objects `{page, limit}` built by
`paginate`. -/
structure PageLink where
  page : Int
  limit : Int
deriving DecidableEq

/-- The result envelope built by `paginate` (app.js lines 62-89). -/
structure PageResult (α : Type) where
  total : Nat
  totalPages : Int
  currentPage : Int
  limit : Int
  next : Option PageLink
  previous : Option PageLink
  data : List α
deriving DecidableEq

/-- `Math.ceil(a / b)` for a natural numerator and the positive integer
denominators the routes pass (every route validates or defaults `limit`
before calling `paginate`, so `b ≤ 0` is unreachable). -/
def mathCeilDiv (a : Nat) (b : Int) : Int :=
  if 0 < b then ((a + b.toNat - 1) / b.toNat : Nat) else 0

/-- The helper `paginate(array, page, limit)` (app.js lines 62-89). -/
def paginate (array : List α) (page limit : Int) : PageResult α :=
  let startIndex := (page - 1) * limit
  let endIndex := page * limit
  { total := array.length
    totalPages := mathCeilDiv array.length limit
    currentPage := page
    limit := limit
    next := if endIndex < (array.length : Int) then
        some { page := page + 1, limit := limit }
      else none
    previous := if 0 < startIndex then
        some { page := page - 1, limit := limit }
      else none
    data := jsSlice array startIndex endIndex }

/-- GET `/api/users` (app.js lines 103-121): parse `page`/`limit` with
defaults 1/10, reject non-positive or over-50 values, then paginate the
users collection. -/
def usersRoute (age : Nat → Nat) (city : Nat → String)
    (pageQ limitQ : Option Int) : Except String (PageResult User) :=
  let page := parseOr pageQ 1
  let limit := parseOr limitQ 10
  if page < 1 ∨ limit < 1 then
    .error "Page and limit must be positive numbers"
  else if 50 < limit then
    .error "Limit cannot exceed 50"
  else
    .ok (paginate (users age city) page limit)

/-- GET `/api/products` (app.js lines 123-139): same validation as
`usersRoute`, paginating the products collection. -/
def productsRoute (price : Nat → Int) (category : Nat → String) (stock : Nat → Int)
    (pageQ limitQ : Option Int) : Except String (PageResult Product) :=
  let page := parseOr pageQ 1
  let limit := parseOr limitQ 10
  if page < 1 ∨ limit < 1 then
    .error "Page and limit must be positive numbers"
  else if 50 < limit then
    .error "Limit cannot exceed 50"
  else
    .ok (paginate (products price category stock) page limit)

/-- The search filter of GET `/api/users/search` (app.js lines 148-153):
keep the users whose lowercased name, email or city contains the
lowercased search term. -/
def searchFilter (us : List User) (searchTerm : String) : List User :=
  us.filter fun user =>
    includesB (lowerChars user.name) (lowerChars searchTerm) ||
    includesB (lowerChars user.email) (lowerChars searchTerm) ||
    includesB (lowerChars user.city) (lowerChars searchTerm)

/-- Response of the search endpoint: envelope plus the echoed
`searchTerm`. -/
structure SearchReply where
  result : PageResult User
  searchTerm : String
deriving DecidableEq

/-- GET `/api/users/search` (app.js lines 142-159).  `req.query.q || ""`
treats an absent or empty parameter as the empty term; no page/limit
validation is performed on this endpoint. -/
def searchRoute (age : Nat → Nat) (city : Nat → String)
    (qQ : Option String) (pageQ limitQ : Option Int) : SearchReply :=
  let page := parseOr pageQ 1
  let limit := parseOr limitQ 10
  let searchTerm := match qQ with
    | none => ""
    | some s => if s = "" then "" else s
  let filteredUsers := searchFilter (users age city) searchTerm
  { result := paginate filteredUsers page limit
    searchTerm := searchTerm }

/-- `parseInt(req.query.maxPrice) || Infinity` (app.js line 167): `none`
models `Infinity` (no upper bound); both an absent/non-numeric parameter
and a parse result of `0` yield `Infinity`. -/
def parseMaxPrice (q : Option Int) : Option Int :=
  match q with
  | none => none
  | some v => if v = 0 then none else some v

/-- `product.price <= maxPrice` where `maxPrice` may be `Infinity`
(`none`). -/
def priceLE (p : Int) (m : Option Int) : Bool :=
  match m with
  | none => true
  | some v => p ≤ v

/-- JavaScript truthiness of the `category` query parameter
(`if (category)` at app.js line 174): absent and empty-string values are
falsy. -/
def categoryTruthy (q : Option String) : Option String :=
  match q with
  | none => none
  | some c => if c = "" then none else some c

/-- The product filter of GET `/api/products/filter` (app.js lines
170-178): price-range filter, then an optional case-insensitive exact
category filter. -/
def attributeFilter (ps : List Product) (categoryQ : Option String)
    (minPrice : Int) (maxPrice : Option Int) : List Product :=
  let filteredProducts := ps.filter fun product =>
    decide (minPrice ≤ product.price) && priceLE product.price maxPrice
  match categoryTruthy categoryQ with
  | some c => filteredProducts.filter fun p => lowerChars p.category = lowerChars c
  | none => filteredProducts

/-- The echoed `filters` object of the filter endpoint. -/
structure Filters where
  category : Option String
  minPrice : Int
  maxPrice : Option Int
deriving DecidableEq

/-- Response of the filter endpoint: envelope plus echoed filters. -/
structure FilterReply where
  result : PageResult Product
  filters : Filters
deriving DecidableEq

/-- GET `/api/products/filter` (app.js lines 162-184); no page/limit
validation is performed on this endpoint. -/
def filterRoute (price : Nat → Int) (category : Nat → String) (stock : Nat → Int)
    (categoryQ : Option String) (minPriceQ maxPriceQ pageQ limitQ : Option Int) : FilterReply :=
  let page := parseOr pageQ 1
  let limit := parseOr limitQ 10
  let minPrice := parseOr minPriceQ 0
  let maxPrice := parseMaxPrice maxPriceQ
  let filteredProducts :=
    attributeFilter (products price category stock) categoryQ minPrice maxPrice
  { result := paginate filteredProducts page limit
    filters := { category := categoryQ, minPrice := minPrice, maxPrice := maxPrice } }

/-- Codepoint-wise three-way lexicographic comparison of character
lists. -/
def lexCmp : List Char → List Char → Int
  | [], [] => 0
  | [], _ :: _ => -1
  | _ :: _, [] => 1
  | a :: as, b :: bs => if a < b then -1 else if b < a then 1 else lexCmp as bs

/-- JavaScript `a.localeCompare(b)` (app.js line 200), modelled as
codepoint lexicographic comparison; the claims about the sort depend only
on `localeCompare` being an antisymmetric total three-way comparison, not
on the locale's particular order. -/
def localeCompare (a b : String) : Int := lexCmp a.data b.data

/-- `a[sortBy]` for the numeric sort fields (app.js line 198). -/
def numField (sortBy : String) (p : Product) : Int :=
  if sortBy = "price" then p.price
  else if sortBy = "id" then (p.id : Int)
  else p.stock

/-- `a[sortBy]` for the string sort field `name` (app.js line 200).  For
a `sortBy` outside `{id, name, price, stock}` the source would read an
`undefined` property and throw; the claims only exercise the four
documented fields, for which this definition is exact. -/
def strField (sortBy : String) (p : Product) : String :=
  if sortBy = "name" then p.name else ""

/-- The comparator body of the sorted endpoint (app.js lines 195-201). -/
def sortComparison (sortBy : String) (a b : Product) : Int :=
  if sortBy = "price" ∨ sortBy = "id" ∨ sortBy = "stock" then
    numField sortBy a - numField sortBy b
  else
    localeCompare (strField sortBy a) (strField sortBy b)

/-- The full comparator passed to `sort` (app.js lines 194-204),
including the `desc` negation on line 203. -/
def jsSortCmp (sortBy order : String) (a b : Product) : Int :=
  let comparison := sortComparison sortBy a b
  if order = "desc" then -comparison else comparison

/-- `[...products].sort(comparator)` (app.js line 194): JavaScript
`Array.prototype.sort` is a stable sort, modelled by `mergeSort` with
`le a b := comparator(a,b) ≤ 0`; the spread copies the array first, so
the source list is untouched. -/
def sortedProducts (ps : List Product) (sortBy order : String) : List Product :=
  ps.mergeSort fun a b => decide (jsSortCmp sortBy order a b ≤ 0)

/-- The echoed `sorting` object of the sorted endpoint. -/
structure Sorting where
  sortBy : String
  order : String
deriving DecidableEq

/-- Response of the sorted endpoint: envelope plus echoed sorting. -/
structure SortReply where
  result : PageResult Product
  sorting : Sorting
deriving DecidableEq

/-- GET `/api/products/sorted` (app.js lines 187-210); `sortBy` defaults
to `"id"`, `order` to `"asc"` (string truthiness), no page/limit
validation. -/
def sortedRoute (price : Nat → Int) (category : Nat → String) (stock : Nat → Int)
    (sortByQ orderQ : Option String) (pageQ limitQ : Option Int) : SortReply :=
  let page := parseOr pageQ 1
  let limit := parseOr limitQ 10
  let sortBy := match sortByQ with
    | none => "id"
    | some s => if s = "" then "id" else s
  let order := match orderQ with
    | none => "asc"
    | some s => if s = "" then "asc" else s
  let sorted := sortedProducts (products price category stock) sortBy order
  { result := paginate sorted page limit
    sorting := { sortBy := sortBy, order := order } }

/-- Response of the cursor endpoint (app.js lines 227-231). -/
structure CursorResult where
  data : List User
  nextCursor : Option Nat
  hasMore : Bool
deriving DecidableEq

/-- The cursor pagination of GET `/api/users/cursor` (app.js lines
218-231): keep users with `id > cursor`, slice the first `limit`,
report `hasMore` and (only when `hasMore`) the id of the last returned
user. -/
def cursorPaginate (us : List User) (cursor limit : Int) : CursorResult :=
  let filteredUsers := us.filter fun user => decide (cursor < (user.id : Int))
  let paginatedUsers := jsSlice filteredUsers 0 limit
  let hasMore := decide (limit < (filteredUsers.length : Int))
  let nextCursor :=
    match paginatedUsers.getLast? with
    | some u => some u.id
    | none => none
  { data := paginatedUsers
    nextCursor := if hasMore then nextCursor else none
    hasMore := hasMore }

/-- GET `/api/users/cursor` (app.js lines 213-232): `limit` defaults to
10, `cursor` to 0; no upper bound is enforced on `limit` and no
validation error exists on this endpoint. -/
def cursorRoute (age : Nat → Nat) (city : Nat → String)
    (cursorQ limitQ : Option Int) : CursorResult :=
  let limit := parseOr limitQ 10
  let cursor := parseOr cursorQ 0
  cursorPaginate (users age city) cursor limit

/-- The properties claim C1 asserts of one `paginate` call: envelope
totals, echoed parameters, the data slice and its length, and the
presence conditions for `next` and `previous`. -/
def PaginateSpec {α : Type} (array : List α) (page limit : Int) : Prop :=
  (paginate array page limit).total = array.length ∧
  (paginate array page limit).totalPages = ((array.length ⌈/⌉ limit.toNat : ℕ) : Int) ∧
  (paginate array page limit).currentPage = page ∧
  (paginate array page limit).limit = limit ∧
  (paginate array page limit).data
    = (array.drop ((page - 1) * limit).toNat).take limit.toNat ∧
  (paginate array page limit).data.length
    = min limit.toNat (array.length - ((page - 1) * limit).toNat) ∧
  ((paginate array page limit).next = some { page := page + 1, limit := limit }
    ↔ page * limit < (array.length : Int)) ∧
  ((paginate array page limit).next.isSome = true
    ↔ page < (paginate array page limit).totalPages) ∧
  ((paginate array page limit).previous = some { page := page - 1, limit := limit }
    ↔ 0 < (page - 1) * limit) ∧
  ((paginate array page limit).previous.isSome = true ↔ 1 < page)

/-- The properties claim C3 asserts of one cursor-pagination call on the
users collection: the data slice is the first `limit` users with
`id > cursor`, its ids are the ascending run `cursor+1 .. cursor+limit`
clipped at 100, `hasMore` holds iff the users with `id > cursor`
outnumber `limit`, and `nextCursor` is the id of the last returned user
when `hasMore` holds and null when nothing was returned or `hasMore` is
false. -/
def CursorSpec (age : Nat → Nat) (city : Nat → String) (cursor limit : Int) : Prop :=
  (cursorPaginate (users age city) cursor limit).data
    = ((users age city).filter (fun u => decide (cursor < (u.id : Int)))).take limit.toNat ∧
  (cursorPaginate (users age city) cursor limit).data.map User.id
    = List.range' (cursor.toNat + 1) (min limit.toNat (100 - cursor.toNat)) ∧
  ((cursorPaginate (users age city) cursor limit).hasMore = true
    ↔ limit < (((users age city).filter (fun u => decide (cursor < (u.id : Int)))).length : Int)) ∧
  ((cursorPaginate (users age city) cursor limit).hasMore = true ↔ limit + cursor < 100) ∧
  ((cursorPaginate (users age city) cursor limit).nextCursor = none
    ↔ ((cursorPaginate (users age city) cursor limit).data = []
        ∨ (cursorPaginate (users age city) cursor limit).hasMore = false)) ∧
  (cursorPaginate (users age city) cursor limit).nextCursor
    = (if limit + cursor < 100 then some (cursor.toNat + limit.toNat) else none)

/-- The properties C7 asserts of the product attribute filter, for an
absent category and for a supplied (truthy) category `c`, together with
the resolution of the price-bound parameters. -/
def AttributeFilterSpec (ps : List Product) (minQ maxQ : Option Int) (c : String) : Prop :=
  (∀ p, p ∈ attributeFilter ps none (parseOr minQ 0) (parseMaxPrice maxQ) ↔
      p ∈ ps ∧ parseOr minQ 0 ≤ p.price ∧
        (∀ m, parseMaxPrice maxQ = some m → p.price ≤ m)) ∧
  (∀ p, p ∈ attributeFilter ps (some c) (parseOr minQ 0) (parseMaxPrice maxQ) ↔
      p ∈ ps ∧ parseOr minQ 0 ≤ p.price ∧
        (∀ m, parseMaxPrice maxQ = some m → p.price ≤ m) ∧
        lowerChars p.category = lowerChars c) ∧
  parseMaxPrice (some 0) = none ∧
  parseMaxPrice none = none ∧
  (∀ v : Int, v ≠ 0 → parseMaxPrice (some v) = some v) ∧
  parseOr none 0 = 0

/-- The properties claim C8 asserts of the sorted endpoint's sort:
idempotence (sorting an already-sorted output again changes nothing, so
repeated calls agree), stability (for every key value, the tied elements
appear in the output in their original order), and asc-reverse equals
desc on tie-free collections. -/
def SortSpec (ps : List Product) (sb ord : String) : Prop :=
  sortedProducts (sortedProducts ps sb ord) sb ord = sortedProducts ps sb ord ∧
  (∀ x : Product,
    (sortedProducts ps sb ord).filter (fun p => decide (sortComparison sb p x = 0))
      = ps.filter (fun p => decide (sortComparison sb p x = 0))) ∧
  (ps.Pairwise (fun a b => sortComparison sb a b ≠ 0) →
    (sortedProducts ps sb "asc").reverse = sortedProducts ps sb "desc")

/-- The module-level state of app.js: the two collections created once
at startup (lines 41-59).  Handlers receive the state and return it
alongside the reply, so any mutation of the collections would be
observable in the returned state. -/
structure AppState where
  users : List User
  products : List Product
deriving DecidableEq

/-- One query to any of the five read endpoints, with its raw query
parameters. -/
inductive Query where
  | usersPage (pageQ limitQ : Option Int)
  | productsPage (pageQ limitQ : Option Int)
  | search (qQ : Option String) (pageQ limitQ : Option Int)
  | filter (categoryQ : Option String) (minPriceQ maxPriceQ pageQ limitQ : Option Int)
  | sorted (sortByQ orderQ : Option String) (pageQ limitQ : Option Int)
  | cursor (cursorQ limitQ : Option Int)

/-- The JSON reply of each endpoint family. -/
inductive Reply where
  | err (msg : String)
  | usersPage (r : PageResult User)
  | productsPage (r : PageResult Product)
  | search (r : SearchReply)
  | filter (r : FilterReply)
  | sorted (r : SortReply)
  | cursor (r : CursorResult)

/-- The five read handlers of app.js as one state-passing step function.
Each branch mirrors the corresponding handler; the `sorted` branch sorts
the spread copy `[...products]` (app.js line 194), never the stored
array, and every branch returns the state it received. -/
def handle (st : AppState) (q : Query) : Reply × AppState :=
  match q with
  | .usersPage pageQ limitQ =>
    let page := parseOr pageQ 1
    let limit := parseOr limitQ 10
    if page < 1 ∨ limit < 1 then (.err "Page and limit must be positive numbers", st)
    else if 50 < limit then (.err "Limit cannot exceed 50", st)
    else (.usersPage (paginate st.users page limit), st)
  | .productsPage pageQ limitQ =>
    let page := parseOr pageQ 1
    let limit := parseOr limitQ 10
    if page < 1 ∨ limit < 1 then (.err "Page and limit must be positive numbers", st)
    else if 50 < limit then (.err "Limit cannot exceed 50", st)
    else (.productsPage (paginate st.products page limit), st)
  | .search qQ pageQ limitQ =>
    let page := parseOr pageQ 1
    let limit := parseOr limitQ 10
    let searchTerm := match qQ with
      | none => ""
      | some s => if s = "" then "" else s
    (.search { result := paginate (searchFilter st.users searchTerm) page limit
               searchTerm := searchTerm }, st)
  | .filter categoryQ minPriceQ maxPriceQ pageQ limitQ =>
    let page := parseOr pageQ 1
    let limit := parseOr limitQ 10
    let minPrice := parseOr minPriceQ 0
    let maxPrice := parseMaxPrice maxPriceQ
    (.filter { result := paginate (attributeFilter st.products categoryQ minPrice maxPrice)
                 page limit
               filters := { category := categoryQ, minPrice := minPrice, maxPrice := maxPrice } },
      st)
  | .sorted sortByQ orderQ pageQ limitQ =>
    let page := parseOr pageQ 1
    let limit := parseOr limitQ 10
    let sortBy := match sortByQ with
      | none => "id"
      | some s => if s = "" then "id" else s
    let order := match orderQ with
      | none => "asc"
      | some s => if s = "" then "asc" else s
    (.sorted { result := paginate (sortedProducts st.products sortBy order) page limit
               sorting := { sortBy := sortBy, order := order } }, st)
  | .cursor cursorQ limitQ =>
    (.cursor (cursorPaginate st.users (parseOr cursorQ 0) (parseOr limitQ 10)), st)

theorem jsSlice_of_nonneg {α : Type} (l : List α) (s e : Int) (hs : 0 ≤ s) (he : 0 ≤ e) :
    jsSlice l s e = (l.drop s.toNat).take (e.toNat - s.toNat) := by
  simp only [jsSlice]
  rw [if_neg (by omega), if_neg (by omega)]
  have hdrop : l.drop (min s (l.length : Int)).toNat = l.drop s.toNat := by
    rcases le_total s (l.length : Int) with h | h
    · rw [min_eq_left h]
    · rw [min_eq_right h]
      rw [List.drop_eq_nil_of_le (by omega), List.drop_eq_nil_of_le (by omega)]
  rw [hdrop, List.take_eq_take]
  simp only [List.length_drop]
  omega

theorem mathCeilDiv_eq_ceilDiv (a : Nat) (b : Int) (hb : 0 < b) :
    mathCeilDiv a b = ((a ⌈/⌉ b.toNat : ℕ) : Int) := by
  unfold mathCeilDiv
  rw [if_pos hb, Nat.ceilDiv_eq_add_pred_div]

theorem lt_ceilDiv_iff (a b p : Nat) (hb : 0 < b) : p < a ⌈/⌉ b ↔ p * b < a := by
  rw [← not_le, ceilDiv_le_iff_le_mul hb, not_le, Nat.mul_comm b p]

theorem lt_ceilDiv_cast (a : Nat) (page limit : Int) (hp : 1 ≤ page) (hl : 1 ≤ limit) :
    (page < ((a ⌈/⌉ limit.toNat : ℕ) : Int)) ↔ page * limit < (a : Int) := by
  obtain ⟨p, rfl⟩ := Int.eq_ofNat_of_zero_le (by omega : (0 : Int) ≤ page)
  obtain ⟨b, rfl⟩ := Int.eq_ofNat_of_zero_le (by omega : (0 : Int) ≤ limit)
  have hb : 0 < b := by exact_mod_cast hl
  have h1 : ((b : Int)).toNat = b := by omega
  rw [h1]
  exact_mod_cast lt_ceilDiv_iff a b p hb

/-- C1: for every sequence, `page ≥ 1` and `limit ∈ [1, 50]`, `paginate`
returns the envelope described by the spec: `total` is the sequence
length, `totalPages = ceil(total/limit)`, `currentPage = page`, `limit`
echoed, `data` the slice `[(page-1)*limit, page*limit)` of length
`min(limit, max(0, total - (page-1)*limit))`, `next` present iff
`page*limit < total` iff `page < totalPages`, and `previous` present iff
`(page-1)*limit > 0` iff `page > 1`. -/
theorem paginate_offset_spec {α : Type} (array : List α) (page limit : Int)
    (hp : 1 ≤ page) (hl : 1 ≤ limit) (hl50 : limit ≤ 50) :
    PaginateSpec array page limit := by
  have hA : (0 : Int) ≤ (page - 1) * limit := mul_nonneg (by omega) (by omega)
  have hB : page * limit = (page - 1) * limit + limit := by ring
  have rnext : (paginate array page limit).next
      = (if page * limit < (array.length : Int) then
          some { page := page + 1, limit := limit } else none) := rfl
  have rprev : (paginate array page limit).previous
      = (if 0 < (page - 1) * limit then
          some { page := page - 1, limit := limit } else none) := rfl
  have rtp : (paginate array page limit).totalPages = mathCeilDiv array.length limit := rfl
  have rdata : (paginate array page limit).data
      = jsSlice array ((page - 1) * limit) (page * limit) := rfl
  have hdata : (paginate array page limit).data
      = (array.drop ((page - 1) * limit).toNat).take limit.toNat := by
    rw [rdata, jsSlice_of_nonneg _ _ _ hA (by omega)]
    congr 1
    generalize hBv : page * limit = B at hB
    generalize hAv : (page - 1) * limit = A at hA hB
    omega
  have hprev : (0 < (page - 1) * limit) ↔ 1 < page := by
    constructor
    · intro h
      by_contra hc
      have hpage1 : page = 1 := by omega
      rw [hpage1] at h
      simp at h
    · intro h
      exact mul_pos (by omega) (by omega)
  refine ⟨rfl, ?_, rfl, rfl, hdata, ?_, ?_, ?_, ?_, ?_⟩
  · rw [rtp, mathCeilDiv_eq_ceilDiv _ _ (by omega)]
  · rw [hdata]
    simp only [List.length_take, List.length_drop]
  · rw [rnext]
    by_cases h : page * limit < (array.length : Int)
    · simp [h]
    · simp [h]
  · rw [rnext, rtp, mathCeilDiv_eq_ceilDiv _ _ (by omega),
      lt_ceilDiv_cast _ _ _ hp hl]
    by_cases h : page * limit < (array.length : Int)
    · simp [h]
    · simp [h]
  · rw [rprev]
    by_cases h : 0 < (page - 1) * limit
    · simp [h]
    · simp [h]
  · rw [rprev]
    by_cases h : 1 < page
    · rw [if_pos (hprev.mpr h)]
      simp [h]
    · rw [if_neg (fun hc => h (hprev.mp hc))]
      simp [h]

/-- Witness for C1 at `array = [10, 20, 30]`, `page = 2`, `limit = 2`. -/
theorem paginate_offset_spec_witness :
    (1 ≤ (2 : Int)) ∧ (1 ≤ (2 : Int)) ∧ ((2 : Int) ≤ 50) ∧
      PaginateSpec [10, 20, 30] 2 2 :=
  ⟨by decide, by decide, by decide,
    paginate_offset_spec [10, 20, 30] 2 2 (by decide) (by decide) (by decide)⟩

theorem paginate_beyond {α : Type} (array : List α) (page limit : Int)
    (hp : 1 ≤ page) (hl : 1 ≤ limit)
    (h : (paginate array page limit).totalPages < page) :
    (paginate array page limit).data = [] ∧ (paginate array page limit).next = none := by
  have rtp : (paginate array page limit).totalPages = mathCeilDiv array.length limit := rfl
  rw [rtp, mathCeilDiv_eq_ceilDiv _ _ (by omega)] at h
  have h1 : array.length ≤ limit.toNat * (array.length ⌈/⌉ limit.toNat) := by
    simpa using le_smul_ceilDiv (show 0 < limit.toNat by omega)
  have h2 : ((array.length : Int)) ≤ (limit.toNat : Int) * ((array.length ⌈/⌉ limit.toNat : ℕ) : Int) := by
    exact_mod_cast h1
  have h3 : ((limit.toNat : Int)) = limit := Int.toNat_of_nonneg (by omega)
  rw [h3] at h2
  have h4 : (((array.length ⌈/⌉ limit.toNat : ℕ) : Int)) ≤ page - 1 := by omega
  have hlen : (array.length : Int) ≤ (page - 1) * limit :=
    calc (array.length : Int) ≤ limit * ((array.length ⌈/⌉ limit.toNat : ℕ) : Int) := h2
      _ ≤ limit * (page - 1) := mul_le_mul_of_nonneg_left h4 (by omega)
      _ = (page - 1) * limit := by ring
  have hA : (0 : Int) ≤ (page - 1) * limit := mul_nonneg (by omega) (by omega)
  have hB : page * limit = (page - 1) * limit + limit := by ring
  have rdata : (paginate array page limit).data
      = jsSlice array ((page - 1) * limit) (page * limit) := rfl
  have rnext : (paginate array page limit).next
      = (if page * limit < (array.length : Int) then
          some { page := page + 1, limit := limit } else none) := rfl
  constructor
  · rw [rdata, jsSlice_of_nonneg _ _ _ hA (by omega)]
    rw [List.drop_eq_nil_of_le ?_]
    · simp
    · generalize hAv : (page - 1) * limit = A at hA hlen
      omega
  · rw [rnext, if_neg ?_]
    generalize hBv : page * limit = B at hB
    generalize hAv : (page - 1) * limit = A at hA hB hlen
    omega

/-- C2 counterexample: contrary to the claim, a users-endpoint request
with `page=0` and `limit=0` is not rejected with a validation error: the
zero parses are silently replaced by the defaults and the request
succeeds. -/
theorem usersRoute_zero_not_rejected :
    (usersRoute (fun _ => 20) (fun _ => "Chicago") (some 0) (some 0)).isOk = true := by
  rfl

/-- C2 (amended): on the offset-pagination endpoints, `page=0` and
`limit=0` parse to falsy values and are silently replaced by the defaults
1 and 10, so the request succeeds; a request whose parsed `limit` exceeds
50 (with non-negative parsed page) is rejected with the
limit-cannot-exceed-50 error; a negative parsed `page` or `limit` is
rejected with the must-be-positive error; and a valid `page` beyond
`totalPages` succeeds with `data = []` and no `next` field. -/
theorem usersRoute_validation (age : Nat → Nat) (city : Nat → String) :
    (usersRoute age city (some 0) (some 0)
      = .ok (paginate (users age city) 1 10)) ∧
    (∀ p : Int, 1 ≤ p →
      usersRoute age city (some p) (some 51) = .error "Limit cannot exceed 50") ∧
    (∀ pageQ : Option Int, ∀ l : Int, l < 0 →
      usersRoute age city pageQ (some l)
        = .error "Page and limit must be positive numbers") ∧
    (∀ limitQ : Option Int, ∀ p : Int, p < 0 →
      usersRoute age city (some p) limitQ
        = .error "Page and limit must be positive numbers") ∧
    (∀ page limit : Int, 1 ≤ page → 1 ≤ limit → limit ≤ 50 →
      (paginate (users age city) page limit).totalPages < page →
      ∃ r, usersRoute age city (some page) (some limit) = .ok r ∧
        r.data = [] ∧ r.next = none) := by
  refine ⟨rfl, ?_, ?_, ?_, ?_⟩
  · intro p hp
    simp only [usersRoute, parseOr]
    rw [if_neg (by omega : ¬ p = 0)]
    norm_num
    omega
  · intro pageQ l hl
    have hlim : parseOr (some l) 10 = l := by
      simp only [parseOr]
      rw [if_neg (by omega)]
    simp only [usersRoute, hlim]
    rw [if_pos (Or.inr (by omega))]
  · intro limitQ p hp
    have hpage : parseOr (some p) 1 = p := by
      simp only [parseOr]
      rw [if_neg (by omega)]
    simp only [usersRoute, hpage]
    rw [if_pos (Or.inl (by omega))]
  · intro page limit hp hl h50 htp
    have hpage : parseOr (some page) 1 = page := by
      simp only [parseOr]
      rw [if_neg (by omega)]
    have hlim : parseOr (some limit) 10 = limit := by
      simp only [parseOr]
      rw [if_neg (by omega)]
    refine ⟨paginate (users age city) page limit, ?_,
      (paginate_beyond _ _ _ hp hl htp).1, (paginate_beyond _ _ _ hp hl htp).2⟩
    simp only [usersRoute, hpage, hlim]
    rw [if_neg (by omega), if_neg (by omega)]

/-- Witness for C2's amended theorem: the `page=0, limit=0` request
succeeds with the defaults, and `limit=51` is rejected with the
limit-exceeds-maximum error. -/
theorem usersRoute_validation_witness :
    (usersRoute (fun _ => 20) (fun _ => "Chicago") (some 0) (some 0)
      = .ok (paginate (users (fun _ => 20) (fun _ => "Chicago")) 1 10)) ∧
    ((1 : Int) ≤ 1 ∧
      usersRoute (fun _ => 20) (fun _ => "Chicago") (some 1) (some 51)
        = .error "Limit cannot exceed 50") :=
  ⟨(usersRoute_validation _ _).1,
    ⟨by decide, (usersRoute_validation _ _).2.1 1 (by decide)⟩⟩

theorem jsSlice_zero {α : Type} (l : List α) (e : Int) (he : 0 ≤ e) :
    jsSlice l 0 e = l.take e.toNat := by
  rw [jsSlice_of_nonneg _ _ _ le_rfl he]
  simp

theorem take_range' : ∀ (m s n : Nat), (List.range' s n).take m = List.range' s (min m n)
  | 0, s, n => by simp
  | m + 1, s, 0 => by simp
  | m + 1, s, n + 1 => by
    rw [List.range'_succ, List.take_succ_cons, take_range' m (s + 1) n]
    have h1 : min (m + 1) (n + 1) = min m n + 1 := by omega
    rw [h1, List.range'_succ]

theorem filter_le_range' : ∀ (n s k : Nat),
    (List.range' s n).filter (fun i => decide (k ≤ i)) = List.range' (max s k) (n - (k - s))
  | 0, s, k => by simp
  | n + 1, s, k => by
    rw [List.range'_succ, List.filter_cons]
    by_cases h : k ≤ s
    · rw [if_pos (by simpa using h), filter_le_range' n (s + 1) k]
      have h1 : max (s + 1) k = s + 1 := by omega
      have h2 : max s k = s := by omega
      have h3 : n - (k - (s + 1)) = n := by omega
      have h4 : n + 1 - (k - s) = n + 1 := by omega
      rw [h1, h2, h3, h4, List.range'_succ]
    · rw [if_neg (by simpa using h), filter_le_range' n (s + 1) k]
      congr 1 <;> omega

theorem getLast?_range' (s : Nat) : ∀ n, 0 < n → (List.range' s n).getLast? = some (s + n - 1)
  | n + 1, _ => by
    rw [List.range'_1_concat, List.getLast?_concat]
    congr 1

theorem users_filter_cursor (age : Nat → Nat) (city : Nat → String)
    (cursor : Int) (hc : 0 ≤ cursor) :
    (users age city).filter (fun u => decide (cursor < (u.id : Int)))
      = (List.range' cursor.toNat (100 - cursor.toNat)).map (mkUser age city) := by
  unfold users
  rw [List.filter_map]
  have hpq : List.filter
      ((fun u => decide (cursor < (u.id : Int))) ∘ mkUser age city) (List.range 100)
      = List.filter (fun i => decide (cursor.toNat ≤ i)) (List.range 100) := by
    apply List.filter_congr
    intro i _
    show decide (cursor < ((i + 1 : Nat) : Int)) = decide (cursor.toNat ≤ i)
    rw [decide_eq_decide]
    omega
  rw [hpq, List.range_eq_range', filter_le_range']
  have h1 : max 0 cursor.toNat = cursor.toNat := by omega
  have h2 : 100 - (cursor.toNat - 0) = 100 - cursor.toNat := by omega
  rw [h1, h2]

theorem cursorPaginate_users_data (age : Nat → Nat) (city : Nat → String)
    (cursor limit : Int) (hc : 0 ≤ cursor) (hl : 0 ≤ limit) :
    (cursorPaginate (users age city) cursor limit).data
      = (List.range' cursor.toNat (min limit.toNat (100 - cursor.toNat))).map
          (mkUser age city) := by
  have rdata : (cursorPaginate (users age city) cursor limit).data
      = jsSlice ((users age city).filter (fun u => decide (cursor < (u.id : Int)))) 0 limit := rfl
  rw [rdata, jsSlice_zero _ _ hl, users_filter_cursor age city cursor hc,
    ← List.map_take, take_range']

theorem cursorPaginate_users_ids (age : Nat → Nat) (city : Nat → String)
    (cursor limit : Int) (hc : 0 ≤ cursor) (hl : 0 ≤ limit) :
    (cursorPaginate (users age city) cursor limit).data.map User.id
      = List.range' (cursor.toNat + 1) (min limit.toNat (100 - cursor.toNat)) := by
  rw [cursorPaginate_users_data age city cursor limit hc hl, List.map_map]
  have hcomp : (User.id ∘ mkUser age city) = fun x => 1 + x := by
    funext i
    simp [mkUser]
    omega
  rw [hcomp, List.map_add_range']
  congr 1
  omega

theorem cursorPaginate_users_hasMore (age : Nat → Nat) (city : Nat → String)
    (cursor limit : Int) (hc : 0 ≤ cursor) (hl : 0 ≤ limit) :
    (cursorPaginate (users age city) cursor limit).hasMore
      = decide (limit + cursor < 100) := by
  have rhm : (cursorPaginate (users age city) cursor limit).hasMore
      = decide (limit <
          (((users age city).filter (fun u => decide (cursor < (u.id : Int)))).length : Int)) := rfl
  rw [rhm, users_filter_cursor age city cursor hc, List.length_map, List.length_range',
    decide_eq_decide]
  omega

theorem cursorPaginate_users_nextCursor (age : Nat → Nat) (city : Nat → String)
    (cursor limit : Int) (hc : 0 ≤ cursor) (hl : 1 ≤ limit) :
    (cursorPaginate (users age city) cursor limit).nextCursor
      = if limit + cursor < 100 then some (cursor.toNat + limit.toNat) else none := by
  have rnc : (cursorPaginate (users age city) cursor limit).nextCursor
      = (if (cursorPaginate (users age city) cursor limit).hasMore = true then
          match (cursorPaginate (users age city) cursor limit).data.getLast? with
          | some u => some u.id
          | none => none
        else none) := rfl
  by_cases hm : limit + cursor < 100
  · have hmin : min limit.toNat (100 - cursor.toNat) = limit.toNat := by omega
    have hlast : (cursorPaginate (users age city) cursor limit).data.getLast?
        = some (mkUser age city (cursor.toNat + limit.toNat - 1)) := by
      rw [cursorPaginate_users_data age city cursor limit hc (by omega), hmin,
        List.getLast?_map, getLast?_range' _ _ (by omega), Option.map_some']
    rw [rnc, cursorPaginate_users_hasMore age city cursor limit hc (by omega),
      if_pos (by simpa using hm), hlast, if_pos hm]
    show some ((mkUser age city (cursor.toNat + limit.toNat - 1)).id)
        = some (cursor.toNat + limit.toNat)
    simp [mkUser]
    omega
  · rw [rnc, cursorPaginate_users_hasMore age city cursor limit hc (by omega),
      if_neg (by simpa using hm), if_neg hm]

/-- C3: for every cursor ≥ 0 and limit ≥ 1, cursor pagination on the
users collection returns the first `limit` users with `id > cursor` in
ascending id order, `hasMore` true iff the users with `id > cursor`
strictly outnumber `limit`, and `nextCursor` the id of the last returned
user, or null when nothing was returned or `hasMore` is false. -/
theorem cursorPaginate_query_spec (age : Nat → Nat) (city : Nat → String)
    (cursor limit : Int) (hc : 0 ≤ cursor) (hl : 1 ≤ limit) :
    CursorSpec age city cursor limit := by
  refine ⟨?_, cursorPaginate_users_ids age city cursor limit hc (by omega), ?_, ?_, ?_,
    cursorPaginate_users_nextCursor age city cursor limit hc hl⟩
  · have rdata : (cursorPaginate (users age city) cursor limit).data
        = jsSlice ((users age city).filter (fun u => decide (cursor < (u.id : Int)))) 0 limit :=
      rfl
    rw [rdata, jsSlice_zero _ _ (by omega)]
  · have rhm : (cursorPaginate (users age city) cursor limit).hasMore
        = decide (limit <
            (((users age city).filter (fun u => decide (cursor < (u.id : Int)))).length : Int)) :=
      rfl
    rw [rhm]
    exact decide_eq_true_iff
  · rw [cursorPaginate_users_hasMore age city cursor limit hc (by omega)]
    exact decide_eq_true_iff
  · rw [cursorPaginate_users_nextCursor age city cursor limit hc hl,
      cursorPaginate_users_hasMore age city cursor limit hc (by omega)]
    by_cases hm : limit + cursor < 100
    · rw [if_pos hm]
      constructor
      · intro h
        exact absurd h (by simp)
      · intro h
        rcases h with h | h
        · have hids := cursorPaginate_users_ids age city cursor limit hc (by omega)
          rw [h] at hids
          have : List.range' (cursor.toNat + 1) (min limit.toNat (100 - cursor.toNat)) = [] :=
            hids.symm
          rw [List.range'_eq_nil] at this
          omega
        · rw [decide_eq_false_iff_not] at h
          exact absurd hm h
    · rw [if_neg hm]
      constructor
      · intro _
        right
        rw [decide_eq_false_iff_not]
        exact hm
      · intro _
        rfl

/-- Witness for C3 at `cursor = 3`, `limit = 4`. -/
theorem cursorPaginate_query_spec_witness :
    (0 ≤ (3 : Int)) ∧ (1 ≤ (4 : Int)) ∧
      CursorSpec (fun _ => 20) (fun _ => "Chicago") 3 4 :=
  ⟨by decide, by decide,
    cursorPaginate_query_spec (fun _ => 20) (fun _ => "Chicago") 3 4 (by decide) (by decide)⟩

/-- C4 counterexample: with `cursor = 95`, `limit = 10` the cursor
endpoint reports `nextCursor = null` (because `hasMore` is false), not
`nextCursor = 100` as claimed. -/
theorem cursor95_nextCursor_not_100 :
    (cursorPaginate (users (fun _ => 20) (fun _ => "Chicago")) 95 10).nextCursor
      ≠ some 100 := by
  decide

/-- C4 (amended): for the users collection (ids 1..100), cursor
pagination with `cursor = 95`, `limit = 10` returns exactly the 5 users
with ids 96..100 and `hasMore = false`; since `hasMore` is false the
response's `nextCursor` is null (the id 100 of the last returned item is
computed internally but replaced by null in the response). -/
theorem cursor95_spec (age : Nat → Nat) (city : Nat → String) :
    ((cursorPaginate (users age city) 95 10).data.map User.id = [96, 97, 98, 99, 100]) ∧
    (cursorPaginate (users age city) 95 10).hasMore = false ∧
    (cursorPaginate (users age city) 95 10).nextCursor = none := by
  refine ⟨?_, ?_, ?_⟩
  · rw [cursorPaginate_users_ids age city 95 10 (by norm_num) (by norm_num)]
    decide
  · rw [cursorPaginate_users_hasMore age city 95 10 (by norm_num) (by norm_num)]
    decide
  · rw [cursorPaginate_users_nextCursor age city 95 10 (by norm_num) (by norm_num)]
    norm_num

theorem usersRoute_rejects_large_limit (age : Nat → Nat) (city : Nat → String)
    (p l : Int) (hp : 1 ≤ p) (hl : 50 < l) :
    usersRoute age city (some p) (some l) = .error "Limit cannot exceed 50" := by
  simp only [usersRoute, parseOr]
  rw [if_neg (by omega : ¬ p = 0), if_neg (by omega : ¬ l = 0),
    if_neg (by omega), if_pos (by omega)]

/-- C5: cursor pagination enforces no upper bound on `limit`: for every
limit above 50 the call still succeeds, returning
`min(limit, |{users with id > cursor}|)` users (so never more than
`limit`, and never a validation error, there being no error case at all
on this endpoint) — whereas the offset users endpoint rejects the same
limit with the limit-cannot-exceed-50 error. -/
theorem cursor_limit_unbounded (age : Nat → Nat) (city : Nat → String)
    (cursor l p : Int) (hc : 0 ≤ cursor) (hl : 50 < l) (hp : 1 ≤ p) :
    ((cursorPaginate (users age city) cursor l).data.length
      = min l.toNat
          ((users age city).filter (fun u => decide (cursor < (u.id : Int)))).length) ∧
    ((cursorPaginate (users age city) cursor l).data.length ≤ l.toNat) ∧
    (usersRoute age city (some p) (some l) = .error "Limit cannot exceed 50") := by
  have rdata : (cursorPaginate (users age city) cursor l).data
      = jsSlice ((users age city).filter (fun u => decide (cursor < (u.id : Int)))) 0 l := rfl
  have hlen : (cursorPaginate (users age city) cursor l).data.length
      = min l.toNat
          ((users age city).filter (fun u => decide (cursor < (u.id : Int)))).length := by
    rw [rdata, jsSlice_zero _ _ (by omega), List.length_take]
  exact ⟨hlen, by rw [hlen]; exact Nat.min_le_left _ _,
    usersRoute_rejects_large_limit age city p l hp hl⟩

/-- Witness for C5 at `cursor = 0`, `limit = 1000`, offset page 2. -/
theorem cursor_limit_unbounded_witness :
    (0 ≤ (0 : Int)) ∧ (50 < (1000 : Int)) ∧ (1 ≤ (2 : Int)) ∧
    ((cursorPaginate (users (fun _ => 20) (fun _ => "Chicago")) 0 1000).data.length
      = min (1000 : Int).toNat
          ((users (fun _ => 20) (fun _ => "Chicago")).filter
            (fun u => decide ((0 : Int) < (u.id : Int)))).length) ∧
    ((cursorPaginate (users (fun _ => 20) (fun _ => "Chicago")) 0 1000).data.length
      ≤ (1000 : Int).toNat) ∧
    (usersRoute (fun _ => 20) (fun _ => "Chicago") (some 2) (some 1000)
      = .error "Limit cannot exceed 50") := by
  have h := cursor_limit_unbounded (fun _ => 20) (fun _ => "Chicago") 0 1000 2
    (by decide) (by decide) (by decide)
  exact ⟨by decide, by decide, by decide, h.1, h.2.1, h.2.2⟩

theorem char_toNat_ofNat_valid {n : Nat} (h : n < 55296) : (Char.ofNat n).toNat = n := by
  rw [Char.ofNat, dif_pos (Or.inl h)]
  rfl

theorem char_toLower_toUpper (c : Char) : (c.toUpper).toLower = c.toLower := by
  simp only [Char.toUpper, Char.toLower]
  by_cases h : c.toNat ≥ 97 ∧ c.toNat ≤ 122
  · rw [if_pos h]
    have h1 : (Char.ofNat (c.toNat - 32)).toNat = c.toNat - 32 :=
      char_toNat_ofNat_valid (by omega)
    rw [h1, if_pos (by omega), if_neg (by omega)]
    have h2 : c.toNat - 32 + 32 = c.toNat := by omega
    rw [h2, Char.ofNat_toNat]
  · rw [if_neg h]

theorem char_toLower_toLower (c : Char) : (c.toLower).toLower = c.toLower := by
  simp only [Char.toLower]
  by_cases h : c.toNat ≥ 65 ∧ c.toNat ≤ 90
  · rw [if_pos h]
    have h1 : (Char.ofNat (c.toNat + 32)).toNat = c.toNat + 32 :=
      char_toNat_ofNat_valid (by omega)
    rw [h1, if_neg (by omega)]
  · rw [if_neg h, if_neg h]

theorem isPrefixB_iff [DecidableEq α] :
    ∀ (t s : List α), isPrefixB t s = true ↔ ∃ post, s = t ++ post
  | [], s => by simp [isPrefixB]
  | a :: as, [] => by simp [isPrefixB]
  | a :: as, b :: bs => by
    simp only [isPrefixB, Bool.and_eq_true, decide_eq_true_eq]
    rw [isPrefixB_iff as bs]
    constructor
    · rintro ⟨hab, post, rfl⟩
      exact ⟨post, by rw [hab, List.cons_append]⟩
    · rintro ⟨post, h⟩
      rw [List.cons_append, List.cons.injEq] at h
      exact ⟨h.1.symm, post, h.2⟩

theorem includesB_iff [DecidableEq α] :
    ∀ (s t : List α), includesB s t = true ↔ ∃ pre post, s = pre ++ t ++ post
  | [], t => by
    simp only [includesB, List.isEmpty_iff]
    constructor
    · rintro rfl
      exact ⟨[], [], rfl⟩
    · rintro ⟨pre, post, h⟩
      have h2 := h.symm
      rw [List.append_assoc, List.append_eq_nil, List.append_eq_nil] at h2
      exact h2.2.1
  | b :: s', t => by
    simp only [includesB, Bool.or_eq_true]
    rw [isPrefixB_iff, includesB_iff s' t]
    constructor
    · rintro (⟨post, hp⟩ | ⟨pre, post, hi⟩)
      · exact ⟨[], post, by simpa using hp⟩
      · exact ⟨b :: pre, post, by simp [hi]⟩
    · rintro ⟨pre, post, h⟩
      cases pre with
      | nil => exact Or.inl ⟨post, by simpa using h⟩
      | cons p ps =>
        rw [List.cons_append, List.cons_append, List.cons.injEq] at h
        exact Or.inr ⟨ps, post, h.2⟩

theorem includesB_nil [DecidableEq α] : ∀ (s : List α), includesB s ([] : List α) = true
  | [] => rfl
  | _ :: s' => by
    simp [includesB, isPrefixB]

theorem searchFilter_congr (us : List User) (t1 t2 : String)
    (h : lowerChars t1 = lowerChars t2) : searchFilter us t1 = searchFilter us t2 := by
  unfold searchFilter
  simp only [h]

theorem lowerChars_toUpper (t : String) : lowerChars t.toUpper = lowerChars t.toLower := by
  unfold lowerChars String.toUpper String.toLower
  rw [String.map_eq, String.map_eq]
  show (t.data.map Char.toUpper).map Char.toLower = (t.data.map Char.toLower).map Char.toLower
  rw [List.map_map, List.map_map,
    show (Char.toLower ∘ Char.toUpper) = Char.toLower from funext char_toLower_toUpper,
    show (Char.toLower ∘ Char.toLower) = Char.toLower from funext char_toLower_toLower]

/-- C6: the search filter keeps exactly the users for which the term is a
case-insensitive substring of the name, the email or the city (logical
OR); the empty term matches every user; the result is a sublist of the
source collection (order preserved); searching an uppercased term gives
the same result as searching the lowercased term, and in particular
`search("USER") = search("user")`. -/
theorem searchFilter_spec (us : List User) (term : String) :
    (∀ u, u ∈ searchFilter us term ↔ u ∈ us ∧
      ((∃ pre post, lowerChars u.name = pre ++ lowerChars term ++ post) ∨
       (∃ pre post, lowerChars u.email = pre ++ lowerChars term ++ post) ∨
       (∃ pre post, lowerChars u.city = pre ++ lowerChars term ++ post))) ∧
    searchFilter us "" = us ∧
    (searchFilter us term).Sublist us ∧
    searchFilter us term.toUpper = searchFilter us term.toLower ∧
    searchFilter us "USER" = searchFilter us "user" := by
  refine ⟨?_, ?_, List.filter_sublist us, ?_, ?_⟩
  · intro u
    unfold searchFilter
    rw [List.mem_filter]
    simp only [Bool.or_eq_true, includesB_iff]
    rw [or_assoc]
  · unfold searchFilter
    rw [List.filter_eq_self]
    intro u _
    have he : lowerChars "" = ([] : List Char) := rfl
    rw [he]
    simp [includesB_nil]
  · exact searchFilter_congr us term.toUpper term.toLower (lowerChars_toUpper term)
  · exact searchFilter_congr us "USER" "user" (by decide)

/-- C7 counterexample: with `maxPrice=0` supplied (a numeric parse), the
claim demands that only products with `price ≤ 0` be kept, but the code
turns the falsy `0` into `Infinity` and keeps everything: on a catalog
whose 50 products all cost 10, the filtered first page holds 10 products,
every one with positive price. -/
theorem filterRoute_maxPrice_zero_not_bound :
    ((filterRoute (fun _ => 10) (fun _ => "Electronics") (fun _ => 0)
        none none (some 0) none none).result.data ≠ []) ∧
    (∀ p ∈ (filterRoute (fun _ => 10) (fun _ => "Electronics") (fun _ => 0)
        none none (some 0) none none).result.data, ¬ (p.price ≤ 0)) := by
  decide

theorem priceLE_iff (x : Int) (m : Option Int) :
    priceLE x m = true ↔ ∀ v, m = some v → x ≤ v := by
  cases m <;> simp [priceLE]

/-- C7 (amended): the attribute filter keeps exactly the products with
`minPrice ≤ price` and, when the resolved `maxPrice` is finite,
`price ≤ maxPrice`; `minPrice` defaults to 0 when absent or non-numeric,
while `maxPrice` resolves to `Infinity` (no upper bound) when absent,
non-numeric, or parsed to `0`, and to the supplied value otherwise; a
supplied non-empty `category` further restricts the result to products
whose category matches case-insensitively and exactly. -/
theorem attributeFilter_spec (ps : List Product) (minQ maxQ : Option Int)
    (c : String) (hc : c ≠ "") : AttributeFilterSpec ps minQ maxQ c := by
  refine ⟨?_, ?_, rfl, rfl, fun v hv => by simp [parseMaxPrice, hv], rfl⟩
  · intro p
    unfold attributeFilter categoryTruthy
    rw [List.mem_filter]
    simp only [Bool.and_eq_true, decide_eq_true_eq, priceLE_iff, and_assoc]
  · intro p
    have hres : attributeFilter ps (some c) (parseOr minQ 0) (parseMaxPrice maxQ)
        = (ps.filter fun product =>
            decide (parseOr minQ 0 ≤ product.price) &&
              priceLE product.price (parseMaxPrice maxQ)).filter
            (fun q => decide (lowerChars q.category = lowerChars c)) := by
      unfold attributeFilter
      rw [show categoryTruthy (some c) = some c from by simp [categoryTruthy, hc]]
    rw [hres, List.mem_filter, List.mem_filter]
    simp only [Bool.and_eq_true, decide_eq_true_eq, priceLE_iff, decide_eq_true_eq]
    constructor
    · rintro ⟨⟨hmem, hmin, hmax⟩, hcat⟩
      exact ⟨hmem, hmin, hmax, hcat⟩
    · rintro ⟨hmem, hmin, hmax, hcat⟩
      exact ⟨⟨hmem, hmin, hmax⟩, hcat⟩

/-- Witness for C7's amended theorem at a one-product catalog with
`minPrice=5`, `maxPrice=20`, `category="Books"`. -/
theorem attributeFilter_spec_witness :
    ("Books" ≠ "") ∧
      AttributeFilterSpec
        [{ id := 1, name := "Product 1", price := 10, category := "Books", stock := 0 }]
        (some 5) (some 20) "Books" :=
  ⟨by decide,
    attributeFilter_spec
      [{ id := 1, name := "Product 1", price := 10, category := "Books", stock := 0 }]
      (some 5) (some 20) "Books" (by decide)⟩

theorem lexCmp_swap : ∀ (a b : List Char), lexCmp b a = -(lexCmp a b)
  | [], [] => rfl
  | [], _ :: _ => rfl
  | _ :: _, [] => rfl
  | a :: as, b :: bs => by
    simp only [lexCmp]
    rcases lt_trichotomy a b with h | h | h
    · rw [if_neg (lt_asymm h), if_pos h, if_pos h]
      norm_num
    · subst h
      rw [if_neg (lt_irrefl a), if_neg (lt_irrefl a), if_neg (lt_irrefl a),
        if_neg (lt_irrefl a)]
      exact lexCmp_swap as bs
    · rw [if_pos h, if_neg (lt_asymm h), if_pos h]

theorem lexCmp_eq_zero_iff : ∀ (a b : List Char), lexCmp a b = 0 ↔ a = b
  | [], [] => by simp [lexCmp]
  | [], _ :: _ => by simp [lexCmp]
  | _ :: _, [] => by simp [lexCmp]
  | a :: as, b :: bs => by
    simp only [lexCmp]
    rcases lt_trichotomy a b with h | h | h
    · rw [if_pos h]
      constructor
      · omega
      · intro hc
        rw [List.cons.injEq] at hc
        exact absurd hc.1 (ne_of_lt h)
    · subst h
      rw [if_neg (lt_irrefl a), if_neg (lt_irrefl a), lexCmp_eq_zero_iff as bs]
      simp
    · rw [if_neg (lt_asymm h), if_pos h]
      constructor
      · omega
      · intro hc
        rw [List.cons.injEq] at hc
        exact absurd hc.1.symm (ne_of_lt h)

theorem lexCmp_trans_nonpos :
    ∀ (a b c : List Char), lexCmp a b ≤ 0 → lexCmp b c ≤ 0 → lexCmp a c ≤ 0
  | [], b, c => by
    cases c <;> simp [lexCmp]
  | a :: as, [], c => by
    simp [lexCmp]
  | a :: as, b :: bs, [] => by
    intro _ h2
    simp [lexCmp] at h2
  | a :: as, b :: bs, c :: cs => by
    simp only [lexCmp]
    intro h1 h2
    rcases lt_trichotomy a b with hab | hab | hab
    · rcases lt_trichotomy b c with hbc | hbc | hbc
      · rw [if_pos (lt_trans hab hbc)]
        omega
      · subst hbc
        rw [if_pos hab]
        omega
      · rw [if_neg (lt_asymm hbc), if_pos hbc] at h2
        omega
    · subst hab
      rw [if_neg (lt_irrefl a), if_neg (lt_irrefl a)] at h1
      rcases lt_trichotomy a c with hac | hac | hac
      · rw [if_pos hac]
        omega
      · subst hac
        rw [if_neg (lt_irrefl a), if_neg (lt_irrefl a)] at h2 ⊢
        exact lexCmp_trans_nonpos as bs cs h1 h2
      · rw [if_neg (lt_asymm hac), if_pos hac] at h2
        omega
    · rw [if_neg (lt_asymm hab), if_pos hab] at h1
      omega

theorem sortComparison_swap (sb : String) (a b : Product) :
    sortComparison sb b a = -(sortComparison sb a b) := by
  unfold sortComparison
  by_cases hsb : sb = "price" ∨ sb = "id" ∨ sb = "stock"
  · rw [if_pos hsb, if_pos hsb]
    ring
  · rw [if_neg hsb, if_neg hsb]
    unfold localeCompare
    exact lexCmp_swap _ _

theorem sortComparison_tie_trans (sb : String) (a b x : Product)
    (h1 : sortComparison sb a x = 0) (h2 : sortComparison sb b x = 0) :
    sortComparison sb a b = 0 := by
  unfold sortComparison at h1 h2 ⊢
  by_cases hsb : sb = "price" ∨ sb = "id" ∨ sb = "stock"
  · rw [if_pos hsb] at h1 h2 ⊢
    omega
  · rw [if_neg hsb] at h1 h2 ⊢
    unfold localeCompare at h1 h2 ⊢
    rw [lexCmp_eq_zero_iff] at h1 h2 ⊢
    rw [h1, h2]

theorem sortComparison_trans_nonpos (sb : String) (a b c : Product)
    (h1 : sortComparison sb a b ≤ 0) (h2 : sortComparison sb b c ≤ 0) :
    sortComparison sb a c ≤ 0 := by
  unfold sortComparison at h1 h2 ⊢
  by_cases hsb : sb = "price" ∨ sb = "id" ∨ sb = "stock"
  · rw [if_pos hsb] at h1 h2 ⊢
    omega
  · rw [if_neg hsb] at h1 h2 ⊢
    unfold localeCompare at h1 h2 ⊢
    exact lexCmp_trans_nonpos _ _ _ h1 h2

theorem jsSortCmp_asc (sb ord : String) (hord : ¬ ord = "desc") (a b : Product) :
    jsSortCmp sb ord a b = sortComparison sb a b := by
  simp only [jsSortCmp]
  rw [if_neg hord]

theorem jsSortCmp_desc (sb : String) (a b : Product) :
    jsSortCmp sb "desc" a b = -(sortComparison sb a b) := by
  simp [jsSortCmp]

theorem jsSortCmp_swap (sb ord : String) (a b : Product) :
    jsSortCmp sb ord b a = -(jsSortCmp sb ord a b) := by
  simp only [jsSortCmp]
  by_cases hord : ord = "desc"
  · rw [if_pos hord, if_pos hord, sortComparison_swap]
  · rw [if_neg hord, if_neg hord, sortComparison_swap]

theorem jsSortCmp_trans (sb ord : String) (a b c : Product)
    (h1 : jsSortCmp sb ord a b ≤ 0) (h2 : jsSortCmp sb ord b c ≤ 0) :
    jsSortCmp sb ord a c ≤ 0 := by
  by_cases hord : ord = "desc"
  · subst hord
    rw [jsSortCmp_desc] at h1 h2 ⊢
    have h1' : sortComparison sb b a ≤ 0 := by
      rw [sortComparison_swap]
      linarith
    have h2' : sortComparison sb c b ≤ 0 := by
      rw [sortComparison_swap]
      linarith
    have h3 := sortComparison_trans_nonpos sb c b a h2' h1'
    rw [sortComparison_swap] at h3
    linarith
  · rw [jsSortCmp_asc sb ord hord] at h1 h2 ⊢
    exact sortComparison_trans_nonpos sb a b c h1 h2

theorem jsSortCmp_total (sb ord : String) (a b : Product) :
    (decide (jsSortCmp sb ord a b ≤ 0) || decide (jsSortCmp sb ord b a ≤ 0)) = true := by
  rw [Bool.or_eq_true, decide_eq_true_eq, decide_eq_true_eq, jsSortCmp_swap sb ord a b]
  rcases le_or_lt (jsSortCmp sb ord a b) 0 with h | h
  · exact Or.inl h
  · exact Or.inr (by linarith)

theorem jsSortCmp_of_tie (sb ord : String) (a b : Product)
    (h : sortComparison sb a b = 0) : jsSortCmp sb ord a b ≤ 0 := by
  simp only [jsSortCmp, h]
  by_cases hord : ord = "desc" <;> simp [hord]

/-- C8: for every sortBy in `{id, name, price, stock}` and every order,
the sort is stable (ties keep insertion order), sorting twice with the
same parameters yields the same output as sorting once, and for a
tie-free field sorting ascending then reversing equals sorting
descending. -/
theorem sort_stability_spec (ps : List Product) (sb ord : String)
    (hsb : sb = "id" ∨ sb = "name" ∨ sb = "price" ∨ sb = "stock") :
    SortSpec ps sb ord := by
  clear hsb
  have htrans : ∀ (o : String) (a b c : Product),
      decide (jsSortCmp sb o a b ≤ 0) = true → decide (jsSortCmp sb o b c ≤ 0) = true →
      decide (jsSortCmp sb o a c ≤ 0) = true := by
    intro o a b c h1 h2
    rw [decide_eq_true_eq] at h1 h2 ⊢
    exact jsSortCmp_trans sb o a b c h1 h2
  have htotal : ∀ (o : String) (a b : Product),
      (decide (jsSortCmp sb o a b ≤ 0) || decide (jsSortCmp sb o b a ≤ 0)) = true :=
    fun o => jsSortCmp_total sb o
  refine ⟨?_, ?_, ?_⟩
  · unfold sortedProducts
    exact List.mergeSort_of_sorted (List.sorted_mergeSort (htrans ord) (htotal ord) ps)
  · intro x
    unfold sortedProducts
    have hmemq : ∀ q ∈ ps.filter (fun p => decide (sortComparison sb p x = 0)),
        decide (sortComparison sb q x = 0) = true :=
      fun q hq => (List.mem_filter.mp hq).2
    have hpair : (ps.filter (fun p => decide (sortComparison sb p x = 0))).Pairwise
        (fun a b => decide (jsSortCmp sb ord a b ≤ 0) = true) := by
      apply List.pairwise_of_forall_mem_list
      intro a ha b hb
      rw [decide_eq_true_eq]
      apply jsSortCmp_of_tie
      have ha' := List.of_mem_filter ha
      have hb' := List.of_mem_filter hb
      rw [decide_eq_true_eq] at ha' hb'
      exact sortComparison_tie_trans sb a b x ha' hb'
    have hsubl : (ps.filter (fun p => decide (sortComparison sb p x = 0))).Sublist
        (ps.mergeSort fun a b => decide (jsSortCmp sb ord a b ≤ 0)) :=
      List.sublist_mergeSort (htrans ord) (htotal ord) hpair (List.filter_sublist ps)
    have hperm : ((ps.mergeSort fun a b => decide (jsSortCmp sb ord a b ≤ 0)).filter
        (fun p => decide (sortComparison sb p x = 0))).Perm
        (ps.filter (fun p => decide (sortComparison sb p x = 0))) :=
      (List.mergeSort_perm ps _).filter _
    have hsub2 := List.Sublist.filter (fun p => decide (sortComparison sb p x = 0)) hsubl
    rw [List.filter_eq_self.mpr hmemq] at hsub2
    exact (hsub2.eq_of_length hperm.length_eq.symm).symm
  · intro hnt
    unfold sortedProducts
    have hsymm : ∀ {x y : Product},
        sortComparison sb x y ≠ 0 → sortComparison sb y x ≠ 0 := by
      intro x y h hc
      rw [sortComparison_swap, neg_eq_zero] at hc
      exact h hc
    have hA := List.sorted_mergeSort (htrans "asc") (htotal "asc") ps
    have hD := List.sorted_mergeSort (htrans "desc") (htotal "desc") ps
    have hpermA : ((ps.mergeSort fun a b => decide (jsSortCmp sb "asc" a b ≤ 0)).reverse).Perm ps :=
      (List.reverse_perm _).trans (List.mergeSort_perm ps _)
    have hpermD : (ps.mergeSort fun a b => decide (jsSortCmp sb "desc" a b ≤ 0)).Perm ps :=
      List.mergeSort_perm ps _
    have hntA : ((ps.mergeSort fun a b => decide (jsSortCmp sb "asc" a b ≤ 0)).reverse).Pairwise
        (fun a b => sortComparison sb a b ≠ 0) :=
      hpermA.symm.pairwise hnt hsymm
    have hntD : (ps.mergeSort fun a b => decide (jsSortCmp sb "desc" a b ≤ 0)).Pairwise
        (fun a b => sortComparison sb a b ≠ 0) :=
      hpermD.symm.pairwise hnt hsymm
    have hsortedRev : ((ps.mergeSort fun a b => decide (jsSortCmp sb "asc" a b ≤ 0)).reverse).Pairwise
        (fun a b => jsSortCmp sb "desc" a b ≤ 0 ∧ sortComparison sb a b ≠ 0) := by
      have h1 : ((ps.mergeSort fun a b => decide (jsSortCmp sb "asc" a b ≤ 0)).reverse).Pairwise
          (fun a b => decide (jsSortCmp sb "asc" b a ≤ 0) = true) :=
        List.pairwise_reverse.mpr hA
      refine List.Pairwise.imp ?_ (h1.and hntA)
      rintro a b ⟨h1', h2'⟩
      refine ⟨?_, h2'⟩
      rw [decide_eq_true_eq, jsSortCmp_asc sb "asc" (by decide) b a] at h1'
      rw [jsSortCmp_desc]
      have := sortComparison_swap sb a b
      linarith
    have hsortedD : (ps.mergeSort fun a b => decide (jsSortCmp sb "desc" a b ≤ 0)).Pairwise
        (fun a b => jsSortCmp sb "desc" a b ≤ 0 ∧ sortComparison sb a b ≠ 0) := by
      refine List.Pairwise.imp ?_ (hD.and hntD)
      rintro a b ⟨h1', h2'⟩
      exact ⟨by rwa [decide_eq_true_eq] at h1', h2'⟩
    have hanti : ∀ a b : Product,
        a ∈ (ps.mergeSort fun a b => decide (jsSortCmp sb "asc" a b ≤ 0)).reverse →
        b ∈ (ps.mergeSort fun a b => decide (jsSortCmp sb "desc" a b ≤ 0)) →
        (jsSortCmp sb "desc" a b ≤ 0 ∧ sortComparison sb a b ≠ 0) →
        (jsSortCmp sb "desc" b a ≤ 0 ∧ sortComparison sb b a ≠ 0) → a = b := by
      intro a b _ _ hab hba
      exfalso
      rcases hab with ⟨hab1, hab2⟩
      rcases hba with ⟨hba1, _⟩
      rw [jsSortCmp_desc] at hab1 hba1
      rw [sortComparison_swap] at hba1
      apply hab2
      linarith
    exact List.Perm.eq_of_sorted hanti hsortedRev hsortedD (hpermA.trans hpermD.symm)

/-- Witness for C8 at a three-product catalog sorted by price. -/
theorem sort_stability_spec_witness :
    ("price" = "id" ∨ "price" = "name" ∨ "price" = "price" ∨ "price" = "stock") ∧
      SortSpec
        [{ id := 1, name := "Product 1", price := 30, category := "Books", stock := 5 },
         { id := 2, name := "Product 2", price := 10, category := "Toys", stock := 7 },
         { id := 3, name := "Product 3", price := 20, category := "Food", stock := 2 }]
        "price" "asc" :=
  ⟨by decide,
    sort_stability_spec
      [{ id := 1, name := "Product 1", price := 30, category := "Books", stock := 5 },
       { id := 2, name := "Product 2", price := 10, category := "Toys", stock := 7 },
       { id := 3, name := "Product 3", price := 20, category := "Food", stock := 2 }]
      "price" "asc" (by decide)⟩

/-- C9: no query operation mutates the source collections: every handler
returns the state element-for-element unchanged, and running the same
query again on the post-state yields the identical reply. -/
theorem handle_no_mutation (st : AppState) (q : Query) :
    (handle st q).2 = st ∧ handle (handle st q).2 q = handle st q := by
  have h2 : (handle st q).2 = st := by
    cases q <;> (simp only [handle]; try split_ifs <;> rfl)
  exact ⟨h2, by rw [h2]⟩

/-- C10: a numeric query parameter whose integer parse yields 0 or NaN
(absent or non-numeric, modelled as `none`) is silently replaced by its
default at every endpoint — page 1, limit 10, minPrice 0, maxPrice
Infinity (so a supplied `maxPrice=0` imposes no upper price bound) and
cursor 0 — and each such request succeeds: the offset endpoints return
`.ok` of the default first page, and the remaining endpoints have no
error case at all. -/
theorem zero_parse_defaults (age : Nat → Nat) (city : Nat → String)
    (price : Nat → Int) (category : Nat → String) (stock : Nat → Int) (d : Int) :
    (parseOr none d = d ∧ parseOr (some 0) d = d) ∧
    (usersRoute age city (some 0) (some 0) = usersRoute age city none none ∧
      usersRoute age city (some 0) (some 0) = .ok (paginate (users age city) 1 10)) ∧
    (productsRoute price category stock (some 0) (some 0)
        = productsRoute price category stock none none ∧
      productsRoute price category stock (some 0) (some 0)
        = .ok (paginate (products price category stock) 1 10)) ∧
    (∀ qQ, searchRoute age city qQ (some 0) (some 0) = searchRoute age city qQ none none) ∧
    (∀ catQ, filterRoute price category stock catQ (some 0) (some 0) (some 0) (some 0)
        = filterRoute price category stock catQ none none none none) ∧
    (∀ (ps : List Product) (catQ : Option String) (minPrice : Int),
      attributeFilter ps catQ minPrice (parseMaxPrice (some 0))
        = attributeFilter ps catQ minPrice (parseMaxPrice none)) ∧
    (∀ sbQ oQ, sortedRoute price category stock sbQ oQ (some 0) (some 0)
        = sortedRoute price category stock sbQ oQ none none) ∧
    (cursorRoute age city (some 0) (some 0) = cursorRoute age city none none) :=
  ⟨⟨rfl, rfl⟩, ⟨rfl, rfl⟩, ⟨rfl, rfl⟩, fun _ => rfl, fun _ => rfl, fun _ _ _ => rfl,
    fun _ _ => rfl, rfl⟩

